import Mathlib

/-!
Verification of the GovukScraper crawl engine against its specification.

The Python sources under `src/` are shallowly embedded below: every pure
function becomes a Lean function, stateful methods become explicit state
passing over structures mirroring the Python objects, and code that raises
exceptions returns `Except`/`Option`.  Wall-clock time is modelled as a
rational-valued virtual clock that advances only when the code sleeps.
-/

namespace Govuk

/-! ## Association-list helpers (Python `dict` with insertion order) -/

/-- Lookup in an insertion-ordered association list (Python `d[k]` / `k in d`). -/
def lookupA {α : Type} (l : List (String × α)) (k : String) : Option α :=
  (l.find? (fun p => p.1 = k)).map (·.2)

/-- Update the value at key `k` in place (Python `d[k] = f(d[k])` for a present key). -/
def updateA {α : Type} (l : List (String × α)) (k : String) (f : α → α) :
    List (String × α) :=
  l.map (fun p => if p.1 = k then (p.1, f p.2) else p)

/-- Python `d[k] = d.get(k, 0) + 1`: bump a counter, appending the key on first use. -/
def bump (l : List (String × Nat)) (k : String) : List (String × Nat) :=
  match lookupA l k with
  | some _ => updateA l k (· + 1)
  | none => l ++ [(k, 1)]

/-- Python `pattern in url`: substring containment. -/
def containsSub (s pat : String) : Bool :=
  decide (pat.data <:+: s.data)

/-- Python `s.startswith(pre)`. -/
def strStartsWith (s pre : String) : Bool :=
  decide (pre.data <+: s.data)

/-! ## Data model -/

/-- One entry of a link-relation list in an API response; `base_path` may be absent. -/
structure LinkItem where
  base_path : Option String
deriving Repr, DecidableEq

/-- A content record returned by the Content Source (`GovUKAPIClient.get_content`).
Optional fields model keys that may be absent from the JSON; `base_path` uses the
empty string for an absent key, matching `content.get('base_path', '')`. -/
structure Content where
  base_path : String
  document_type : Option String
  updated_at : Option String
  title : Option String
  body : Option String
  schema_name : Option String
  error : Option String
  organisations : List (Option String)
  related_items : List LinkItem
  related_guides : List LinkItem
  related_content : List LinkItem
deriving Repr, DecidableEq

/-- The Content Source: a path either yields a content record or raises `APIError`
with a message (rate limiting raises with message "Rate limit exceeded"). -/
def Api : Type := String → Except String Content

/-- `GovUKAPIClient.is_placeholder_content`. -/
def isPlaceholderContent (c : Content) : Bool :=
  if c.error = some "not_found" then true
  else if (c.title.getD "").isEmpty || (c.body.getD "").isEmpty then true
  else if c.schema_name = some "placeholder" then true
  else false

/-- `GovUKAPIClient.get_related_links`: base paths collected from the
`related_items`, `related_guides` and `related_content` link relations. -/
def getRelatedLinks (c : Content) : List String :=
  (c.related_items ++ c.related_guides ++ c.related_content).filterMap (·.base_path)

/-- `GovUKCrawler._extract_publishing_org`: title of the first organisation link,
with `""` defaults for a missing list or a missing title. -/
def extractPublishingOrg (c : Content) : String :=
  match c.organisations.head? with
  | some t => t.getD ""
  | none => ""

/-- A recorded page (`page_data` in `GovUKCrawler._process_content`). -/
structure Page where
  path : String
  content_type : String
  last_updated : String
  status : String
  depth_level : Nat
  publishing_org : String
  related_links : List String
deriving Repr, DecidableEq

/-- A per-section aggregate (`self.sections[section]`). -/
structure SectionData where
  total_pages : Nat
  active_pages : Nat
  placeholder_pages : Nat
  depth_distribution : List (String × Nat)
  pages : List Page
deriving Repr, DecidableEq

/-- The fresh aggregate created on first sight of a section. -/
def emptySection : SectionData :=
  { total_pages := 0, active_pages := 0, placeholder_pages := 0
    depth_distribution := [], pages := [] }

/-- `self.scan_metadata` of `GovUKCrawler`. -/
structure ScanMetadata where
  timestamp : String
  depth_limit : Nat
  total_pages : Nat
  sections_covered : Nat
  rate_limit_pauses : Nat
deriving Repr, DecidableEq

/-! ## Progress tracker (`ScanProgress`)

`start_time` and `_last_update` drive only wall-clock log lines and the
time-string fields of `get_status`; they are omitted. -/

structure ScanProgress where
  sections_processed : Nat
  total_links : Nat
  current_section : String
  rate_limit_hits : Nat
  depth_counts : List (String × Nat)
  content_types : List (String × Nat)
deriving Repr, DecidableEq

def ScanProgress.init : ScanProgress :=
  { sections_processed := 0, total_links := 0, current_section := ""
    rate_limit_hits := 0, depth_counts := [], content_types := [] }

/-- `progress.update(links_found=n, depth=d, content_type=t)` as called per page. -/
def progressUpdatePage (p : ScanProgress) (links_found : Nat) (depth : Nat)
    (content_type : String) : ScanProgress :=
  { p with total_links := p.total_links + links_found
           depth_counts := bump p.depth_counts (toString depth)
           content_types := bump p.content_types content_type }

/-- `progress.update(section=s)`. -/
def progressUpdateSection (p : ScanProgress) (sec : String) : ScanProgress :=
  { p with current_section := sec, sections_processed := p.sections_processed + 1 }

/-- `progress.update(rate_limited=True)`. -/
def progressUpdateRateLimited (p : ScanProgress) : ScanProgress :=
  { p with rate_limit_hits := p.rate_limit_hits + 1 }

/-- The dictionary returned by `ScanProgress.get_status` — note its keys
(`sections_analyzed`, `total_links_found`, `depth_distribution`) differ from the
tracker's own attribute names.  The wall-clock `timestamp`/`scan_duration`
entries are omitted. -/
structure ProgressSnapshot where
  sections_analyzed : Nat
  total_links_found : Nat
  rate_limit_hits : Nat
  current_section : String
  depth_distribution : List (String × Nat)
  content_types : List (String × Nat)
deriving Repr, DecidableEq

def getStatus (p : ScanProgress) : ProgressSnapshot :=
  { sections_analyzed := p.sections_processed
    total_links_found := p.total_links
    rate_limit_hits := p.rate_limit_hits
    current_section := p.current_section
    depth_distribution := p.depth_counts
    content_types := p.content_types }

/-! ## Checkpoint store (`CheckpointManager`) -/

/-- The state dictionary handed to `save_checkpoint`; every key is optional
because callers build it by hand (Python `state.get(...)` tolerates absence). -/
structure StateSnapshot where
  scan_metadata : Option ScanMetadata
  sections : Option (List (String × SectionData))
  visited_urls : Option (List String)
  progress : Option ProgressSnapshot
  queue_items : Option (List (Int × String × Nat))
deriving Repr, DecidableEq

/-- The JSON object written to a checkpoint file. -/
structure CheckpointData where
  timestamp : String
  state : StateSnapshot
  pages_processed : Nat
  sections_covered : Nat
deriving Repr, DecidableEq

/-- A file in the checkpoint directory: either a parseable checkpoint or
content `json.load` rejects. -/
inductive FileContent where
  | good (cd : CheckpointData)
  | corrupt
deriving Repr, DecidableEq

/-- `CheckpointManager`.  `now_ts` is the `datetime.now()` timestamp string used
for the next save; `files` is the checkpoint directory, as an append log so that
a later write to the same name shadows an earlier one. -/
structure CheckpointManager where
  checkpoint_interval : Nat
  pages_since_checkpoint : Nat
  now_ts : String
  files : List (String × FileContent)
deriving Repr, DecidableEq

/-- `CheckpointManager.should_checkpoint`. -/
def should_checkpoint (cm : CheckpointManager) (pages_processed : Nat) :
    Bool × CheckpointManager :=
  let acc := cm.pages_since_checkpoint + pages_processed
  if cm.checkpoint_interval ≤ acc then
    (true, { cm with pages_since_checkpoint := 0 })
  else
    (false, { cm with pages_since_checkpoint := acc })

/-- `CheckpointManager.save_checkpoint`.  `writeOk` models whether the file
write succeeds; on failure the exception propagates (`Except.error`) and the
manager is returned unchanged — in particular the counter keeps its value. -/
def save_checkpoint (cm : CheckpointManager) (state : StateSnapshot)
    (writeOk : Bool) : Except String String × CheckpointManager :=
  let filename := "checkpoint_" ++ cm.now_ts ++ ".json"
  let data : CheckpointData :=
    { timestamp := cm.now_ts
      state := state
      pages_processed := (state.scan_metadata.map (·.total_pages)).getD 0
      sections_covered := (state.scan_metadata.map (·.sections_covered)).getD 0 }
  if writeOk then
    (Except.ok filename,
      { cm with files := cm.files ++ [(filename, FileContent.good data)]
                pages_since_checkpoint := 0 })
  else
    (Except.error "Failed to save checkpoint", cm)

/-- `CheckpointManager.load_checkpoint`: a missing file or one the JSON parser
rejects yields `none`; otherwise the `"state"` entry of the file. -/
def load_checkpoint (cm : CheckpointManager) (filename : String) :
    Option StateSnapshot :=
  match cm.files.reverse.find? (fun p => p.1 = filename) with
  | none => none
  | some (_, FileContent.corrupt) => none
  | some (_, FileContent.good cd) => some cd.state

/-- Run a sequence of `should_checkpoint` calls, collecting the results. -/
def runShouldCheckpoint (cm : CheckpointManager) : List Nat → List Bool × CheckpointManager
  | [] => ([], cm)
  | n :: rest =>
    let (b, cm') := should_checkpoint cm n
    let (bs, cm'') := runShouldCheckpoint cm' rest
    (b :: bs, cm'')

/-! ## Crawl engine (`GovUKCrawler`) -/

/-- The crawler object.  `fetch_log` is instrumentation, not a Python field:
it records every path handed to `api_client.get_content`, so that theorems can
speak about which requests were issued (and that none was retried). -/
structure Crawler where
  max_depth : Nat
  visited_urls : List String
  scan_metadata : ScanMetadata
  sections : List (String × SectionData)
  progress : ScanProgress
  cm : CheckpointManager
  fetch_log : List String
deriving Repr, DecidableEq

/-- `GovUKCrawler._should_process_url`. -/
def should_process_url (c : Crawler) (url : String) : Bool :=
  if url ∈ c.visited_urls then false
  else if ¬ strStartsWith url "/" then false
  else ¬ (containsSub url "/assets/" || containsSub url "/images/" ||
          containsSub url "/attachments/")

/-- The state dictionary built inside `_process_content` for an interval-triggered
checkpoint (no `queue_items` key in the baseline crawler). -/
def buildSnapshot (c : Crawler) : StateSnapshot :=
  { scan_metadata := some c.scan_metadata
    sections := some c.sections
    visited_urls := some c.visited_urls
    progress := some (getStatus c.progress)
    queue_items := none }

/-- Lines 68–77 of `_process_content`: mark the path visited, count the page in
the scan metadata and fire the per-page progress update. -/
def markVisited (c : Crawler) (path : String) (depth : Nat) (ctype : String) :
    Crawler :=
  { c with visited_urls := c.visited_urls ++ [path]
           scan_metadata :=
             { c.scan_metadata with
                 total_pages := c.scan_metadata.total_pages + 1 }
           progress := progressUpdatePage c.progress 1 depth ctype }

/-- Lines 91–100: lazily create the section aggregate, counting the new section
in the metadata and the progress tracker. -/
def ensureSection (c : Crawler) (sec : String) : Crawler :=
  if (lookupA c.sections sec).isSome then c
  else
    { c with sections := c.sections ++ [(sec, emptySection)]
             scan_metadata :=
               { c.scan_metadata with
                   sections_covered := c.scan_metadata.sections_covered + 1 }
             progress := progressUpdateSection c.progress sec }

/-- The per-section effect of lines 102–112: one more total page, one more
active or placeholder page, and a bumped depth histogram. -/
def bumpSection (status : String) (depth : Nat) (d : SectionData) : SectionData :=
  let d1 := { d with total_pages := d.total_pages + 1 }
  let d2 :=
    if status = "active" then { d1 with active_pages := d1.active_pages + 1 }
    else { d1 with placeholder_pages := d1.placeholder_pages + 1 }
  { d2 with depth_distribution := bump d2.depth_distribution (toString depth) }

def bumpSectionCounters (c : Crawler) (sec : String) (status : String)
    (depth : Nat) : Crawler :=
  { c with sections := updateA c.sections sec (bumpSection status depth) }

/-- Line 127: append the finished page to the section's page list. -/
def appendPage (c : Crawler) (sec : String) (page : Page) : Crawler :=
  { c with sections := updateA c.sections sec (fun d =>
      { d with pages := d.pages ++ [page] }) }

/-- Lines 130–137: the per-page checkpoint check, saving the current state when
the interval is reached. -/
def checkpointStep (c : Crawler) : Crawler :=
  let sc := should_checkpoint c.cm 1
  let c6 : Crawler := { c with cm := sc.2 }
  if sc.1 then
    { c6 with cm := (save_checkpoint c6.cm (buildSnapshot c6) true).2 }
  else c6

/-- `GovUKCrawler._process_content`.  Structural recursion on `fuel`, which
exists for Lean's termination checker only: the code recurses only while
`depth < max_depth` and each nested call runs one level deeper, so any
top-level call with `fuel ≥ max_depth + 1 - depth` never reaches the
fuel-exhaustion branch.  The inner fold is the `for link in related_links`
loop: a rejected link is skipped, a fetched link that raises `APIError` is
logged and abandoned, and a fetched content record is processed one level
deeper. -/
def processContent (api : Api) : Nat → Crawler → Content → Nat → String → Crawler
  | 0, c, _, _, _ => c
  | fuel + 1, c, content, depth, sec =>
    if c.max_depth < depth then c
    else if content.base_path = "" ∨ content.base_path ∈ c.visited_urls then c
    else
      let path := content.base_path
      let ctype := content.document_type.getD "unknown"
      let status := if isPlaceholderContent content then "placeholder" else "active"
      let c3 : Crawler :=
        bumpSectionCounters (ensureSection (markVisited c path depth ctype) sec)
          sec status depth
      let related := if depth < c.max_depth then getRelatedLinks content else []
      let c4 : Crawler :=
        if depth < c.max_depth then
          related.foldl (fun acc l =>
            if should_process_url acc l then
              match api l with
              | Except.ok cc =>
                processContent api fuel
                  { acc with fetch_log := acc.fetch_log ++ [l] } cc (depth + 1) sec
              | Except.error _ => { acc with fetch_log := acc.fetch_log ++ [l] }
            else acc) c3
        else c3
      let page : Page :=
        { path := path, content_type := ctype
          last_updated := content.updated_at.getD ""
          status := status, depth_level := depth
          publishing_org := extractPublishingOrg content
          related_links := related }
      checkpointStep (appendPage c4 sec page)

/-- One iteration of the `for link in related_links` loop of
`_process_content` (the fold body of `processContent` at the given fuel). -/
def linkStep (api : Api) (fuel : Nat) (depth : Nat) (sec : String)
    (acc : Crawler) (l : String) : Crawler :=
  if should_process_url acc l then
    match api l with
    | Except.ok cc =>
      processContent api fuel { acc with fetch_log := acc.fetch_log ++ [l] }
        cc (depth + 1) sec
    | Except.error _ => { acc with fetch_log := acc.fetch_log ++ [l] }
  else acc

/-- The whole `for link in related_links` loop. -/
def processLinks (api : Api) (fuel : Nat) (c : Crawler) (links : List String)
    (depth : Nat) (sec : String) : Crawler :=
  links.foldl (linkStep api fuel depth sec) c

/-- The recursive case of `processContent`, phrased through `processLinks`. -/
theorem processContent_succ (api : Api) (fuel : Nat) (c : Crawler)
    (content : Content) (depth : Nat) (sec : String) :
    processContent api (fuel + 1) c content depth sec =
      if c.max_depth < depth then c
      else if content.base_path = "" ∨ content.base_path ∈ c.visited_urls then c
      else
        let path := content.base_path
        let ctype := content.document_type.getD "unknown"
        let status := if isPlaceholderContent content then "placeholder" else "active"
        let c3 : Crawler :=
          bumpSectionCounters (ensureSection (markVisited c path depth ctype) sec)
            sec status depth
        let related := if depth < c.max_depth then getRelatedLinks content else []
        let c4 : Crawler :=
          if depth < c.max_depth then processLinks api fuel c3 related depth sec
          else c3
        let page : Page :=
          { path := path, content_type := ctype
            last_updated := content.updated_at.getD ""
            status := status, depth_level := depth
            publishing_org := extractPublishingOrg content
            related_links := related }
        checkpointStep (appendPage c4 sec page) := rfl

/-- The dictionary returned by a successful `GovUKCrawler.crawl_section`. -/
structure CrawlResult where
  scan_metadata : ScanMetadata
  sections : List (String × SectionData)
  progress : ProgressSnapshot
deriving Repr, DecidableEq

/-- `GovUKCrawler.crawl_section`: fetch the entry path; on `APIError` record a
rate-limit progress event when the message contains "Rate limit exceeded" and
return `{}` (modelled `none`); otherwise process the content from depth 0. -/
def crawl_section (api : Api) (c : Crawler) (section_path : String) :
    Option CrawlResult × Crawler :=
  let c0 : Crawler := { c with fetch_log := c.fetch_log ++ [section_path] }
  match api section_path with
  | Except.ok content =>
    let c' := processContent api (c.max_depth + 1) c0 content 0 section_path
    (some { scan_metadata := c'.scan_metadata, sections := c'.sections
            progress := getStatus c'.progress }, c')
  | Except.error e =>
    let c1 :=
      if containsSub e "Rate limit exceeded" then
        { c0 with progress := progressUpdateRateLimited c0.progress }
      else c0
    (none, c1)

/-- `setattr(self.progress, key, value)` over every key of a `get_status`
snapshot: only `rate_limit_hits`, `current_section` and `content_types`
coincide with `ScanProgress` attribute names; the remaining keys
(`sections_analyzed`, `total_links_found`, `depth_distribution`, ...) create
fresh attributes that no other code reads, so `sections_processed`,
`total_links` and `depth_counts` keep their previous values. -/
def restoreProgress (p : ScanProgress) (s : ProgressSnapshot) : ScanProgress :=
  { p with rate_limit_hits := s.rate_limit_hits
           current_section := s.current_section
           content_types := s.content_types }

/-- The snapshot of an empty Python state dictionary (`{}` is falsy). -/
def emptySnapshot : StateSnapshot :=
  { scan_metadata := none, sections := none, visited_urls := none
    progress := none, queue_items := none }

/-- `GovUKCrawler.restore_from_checkpoint`.  A falsy loaded state — `None` from
`load_checkpoint` or an empty dictionary — returns `False` with the crawler
untouched. -/
def restore_from_checkpoint (c : Crawler) (filename : String) : Bool × Crawler :=
  match load_checkpoint c.cm filename with
  | none => (false, c)
  | some st =>
    if st = emptySnapshot then
      (false, c)
    else
      (true,
        { c with
            scan_metadata := st.scan_metadata.getD c.scan_metadata
            sections := st.sections.getD []
            visited_urls := st.visited_urls.getD []
            progress :=
              match st.progress with
              | some p => restoreProgress c.progress p
              | none => c.progress })

/-! ## Optimised crawler (`OptimisedCrawler`)

`queue.PriorityQueue` stores the tuples `(priority, url, depth)` and `get`
returns a smallest one under Python's lexicographic tuple order; two fully
equal tuples are indistinguishable, so extracting a leftmost minimum is a
faithful model of the heap. -/

/-- An entry of `url_queue`: the Python tuple `(priority, url, depth)`. -/
structure QItem where
  priority : Int
  url : String
  depth : Nat
deriving Repr, DecidableEq

/-- A string as its list of Unicode code points — the units Python's string
comparison orders by. -/
def urlCodes (s : String) : List ℕ :=
  s.data.map Char.toNat

/-- Python's `<` on the tuples `(priority, url, depth)`: integer order on the
priority, then lexicographic code-point order on the url, then depth order. -/
def QLt (a b : QItem) : Prop :=
  a.priority < b.priority ∨
    (a.priority = b.priority ∧
      (List.Lex (· < ·) (urlCodes a.url) (urlCodes b.url) ∨
        (urlCodes a.url = urlCodes b.url ∧ a.depth < b.depth)))

instance (a b : QItem) : Decidable (QLt a b) := by
  unfold QLt
  exact inferInstance

/-- `url_queue.get()` without removal: a minimal entry under Python's tuple
order (the heap returns some smallest tuple; fully equal tuples are
indistinguishable, so the leftmost one is taken). -/
def queueMin : List QItem → Option QItem
  | [] => none
  | x :: xs => some (xs.foldl (fun m y => if QLt y m then y else m) x)

/-- `url_queue.get()`: a minimal entry together with the remaining queue. -/
def queueGet (q : List QItem) : Option (QItem × List QItem) :=
  match queueMin q with
  | none => none
  | some m => some (m, q.eraseP (fun y => decide (y = m)))

/-- `OptimisedCrawler`.  The Bloom filter is modelled as exact membership (a
false positive would only cause extra rejections and no claim here depends on
the error rate).  `__init__` never assigns `update_frequency` or
`page_metrics`, so reading them raises `AttributeError`; `none` models the
absent attribute and `some` a dictionary assigned to the instance afterwards
(for `page_metrics`, a URL's entry stands for the `'importance'` value of its
metrics dictionary). -/
structure OptCrawler where
  base : Crawler
  seen_urls : List String
  url_queue : List QItem
  update_frequency : Option (List (String × Int))
  page_metrics : Option (List (String × Int))
deriving Repr, DecidableEq

/-- The `priority_types` bonus dictionary lookup in `_calculate_priority`. -/
def priorityTypeBonus (ct : String) : Int :=
  if ct = "guide" then -500
  else if ct = "detailed_guide" then -400
  else if ct = "service" then -300
  else if ct = "transaction" then -300
  else 0

/-- `OptimisedCrawler._calculate_priority`.  Raises `AttributeError`
(`Except.error`) whenever the never-initialised `update_frequency` /
`page_metrics` attributes are read. -/
def calculate_priority (oc : OptCrawler) (url : String)
    (content_type : Option String) (depth : Nat) : Except String Int :=
  let base : Int := depth * 10
  let base :=
    match content_type with
    | some ct => if ct.isEmpty then base else base + priorityTypeBonus ct
    | none => base
  let base := if containsSub url "/services/" then base - 100 else base
  let base := if containsSub url "/guidance/" then base - 50 else base
  let priority : Int := max 1 base
  match oc.update_frequency with
  | none => Except.error "AttributeError: update_frequency"
  | some uf =>
    let priority :=
      match lookupA uf url with
      | some f => priority - f * 100
      | none => priority
    match oc.page_metrics with
    | none => Except.error "AttributeError: page_metrics"
    | some pm =>
      let priority :=
        match lookupA pm url with
        | some imp => priority - imp * 50
        | none => priority
      Except.ok (max 1 priority)

/-- `OptimisedCrawler.add_url_to_queue`. -/
def add_url_to_queue (oc : OptCrawler) (url : String)
    (content_type : Option String) (depth : Nat) : Except String OptCrawler :=
  if url ∈ oc.seen_urls then Except.ok oc
  else
    match calculate_priority oc url content_type depth with
    | Except.error e => Except.error e
    | Except.ok priority =>
      Except.ok
        { oc with
            url_queue := oc.url_queue ++ [{ priority := priority, url := url, depth := depth }]
            seen_urls := oc.seen_urls ++ [url] }

/-- The state dictionary the optimised `crawl_section` hands to
`save_checkpoint` (it additionally records `queue_items`). -/
def optBuildSnapshot (oc : OptCrawler) : StateSnapshot :=
  { scan_metadata := some oc.base.scan_metadata
    sections := some oc.base.sections
    visited_urls := some oc.base.visited_urls
    progress := some (getStatus oc.base.progress)
    queue_items := some (oc.url_queue.map (fun q => (q.priority, q.url, q.depth))) }

/-- `OptimisedCrawler.restore_from_checkpoint`: load (falsy states fail), run
the base restoration, then `put` every saved queue item back. -/
def opt_restore_from_checkpoint (oc : OptCrawler) (filename : String) :
    Bool × OptCrawler :=
  match load_checkpoint oc.base.cm filename with
  | none => (false, oc)
  | some st =>
    if st = emptySnapshot then (false, oc)
    else
      let br := restore_from_checkpoint oc.base filename
      if br.1 = false then (false, { oc with base := br.2 })
      else
        let oc' : OptCrawler := { oc with base := br.2 }
        match st.queue_items with
        | some items =>
          (true, { oc' with
                     url_queue := oc'.url_queue ++
                       items.map (fun t => { priority := t.1, url := t.2.1, depth := t.2.2 }) })
        | none => (true, oc')

/-! ## Rate limiter (`RateLimiter`)

Wall-clock time is a rational virtual clock `now`; back-to-back callers let no
time pass between calls, so `now` advances only inside `time.sleep`. -/

structure RateLimiter where
  requests_per_second : Nat
  requests_times : List ℚ
  now : ℚ
deriving Repr, DecidableEq

/-- `RateLimiter._clean_old_requests`: pop from the front while the head is at
least `window_size = 1` second old (the deque is kept in append order). -/
def cleanOldRequests (r : RateLimiter) : RateLimiter :=
  { r with requests_times := r.requests_times.dropWhile (fun t => 1 ≤ r.now - t) }

/-- `RateLimiter.wait_if_needed`.  When the window already holds
`requests_per_second` timestamps, sleep until the oldest one leaves the
window, clean again, then record the current time. -/
def wait_if_needed (r : RateLimiter) : RateLimiter :=
  let r1 := cleanOldRequests r
  let r2 :=
    if r1.requests_per_second ≤ r1.requests_times.length then
      match r1.requests_times.head? with
      | some t0 =>
        let sleep_time := 1 - (r1.now - t0)
        if 0 < sleep_time then cleanOldRequests { r1 with now := r1.now + sleep_time }
        else r1
      | none => r1
    else r1
  { r2 with requests_times := r2.requests_times ++ [r2.now] }

/-- `n` back-to-back `wait_if_needed` calls. -/
def acquireN : Nat → RateLimiter → RateLimiter
  | 0, r => r
  | n + 1, r => acquireN n (wait_if_needed r)

/-- A fresh limiter at rate `R`, created at time 0. -/
def freshLimiter (R : Nat) : RateLimiter :=
  { requests_per_second := R, requests_times := [], now := 0 }

/-- Modelled from the spec (§4.2): the token-bucket gate the specification
describes — capacity `R`, refill `min(capacity, tokens + elapsed*R)`, immediate
consume when a token is available, otherwise a `(1 − tokens)/R` sleep.  The
repository's `RateLimiter` is a rolling-window limiter instead; this definition
exists only to compare the two behaviours. -/
structure SpecTokenBucket where
  rate : ℚ
  capacity : ℚ
  tokens : ℚ
  last_refill : ℚ
  now : ℚ
deriving Repr, DecidableEq

def specTokenBucketAcquire (b : SpecTokenBucket) : SpecTokenBucket :=
  let elapsed := b.now - b.last_refill
  let refreshed := min b.capacity (b.tokens + elapsed * b.rate)
  let b1 := { b with tokens := refreshed, last_refill := b.now }
  if 1 ≤ b1.tokens then { b1 with tokens := b1.tokens - 1 }
  else
    let wait := (1 - b1.tokens) / b1.rate
    { b1 with now := b1.now + wait, last_refill := b1.now + wait
              tokens := b1.tokens + wait * b1.rate - 1 }

def specTokenBucketAcquireN : Nat → SpecTokenBucket → SpecTokenBucket
  | 0, b => b
  | n + 1, b => specTokenBucketAcquireN n (specTokenBucketAcquire b)

/-- A fresh (full) bucket at rate `R`, created at time 0. -/
def freshBucket (R : Nat) : SpecTokenBucket :=
  { rate := R, capacity := R, tokens := R, last_refill := 0, now := 0 }

end Govuk

namespace Govuk

/-! ## Sample objects shared by concrete witnesses and counterexamples -/

def freshCM : CheckpointManager :=
  { checkpoint_interval := 100, pages_since_checkpoint := 0
    now_ts := "20250101_000000", files := [] }

def freshCrawler : Crawler :=
  { max_depth := 1
    visited_urls := []
    scan_metadata := { timestamp := "t0", depth_limit := 1, total_pages := 0
                       sections_covered := 0, rate_limit_pauses := 0 }
    sections := []
    progress := ScanProgress.init
    cm := freshCM
    fetch_log := [] }

/-! ## Claim C2 -/

/-- A fresh manager with interval 100 for the worked example of the claim. -/
def cmInterval100 : CheckpointManager :=
  { checkpoint_interval := 100, pages_since_checkpoint := 0
    now_ts := "20250101_000000", files := [] }

/-- C2: a `should_checkpoint(n)` call returns true exactly when the counter of
pages accumulated since the last true-returning call (held in
`pages_since_checkpoint`) reaches the configured interval; that same call
resets the counter to zero, and any other call returns false and keeps the
accumulated value.  With interval 100, calls of 50 then 49 return false and a
following call of 1 returns true and resets. -/
theorem shouldCheckpoint_true_iff_reaches_interval_and_resets
    (cm : CheckpointManager) (n : Nat) :
    ((should_checkpoint cm n).1 = true ↔
      cm.checkpoint_interval ≤ cm.pages_since_checkpoint + n) ∧
    ((should_checkpoint cm n).2.pages_since_checkpoint =
      if cm.checkpoint_interval ≤ cm.pages_since_checkpoint + n then 0
      else cm.pages_since_checkpoint + n) ∧
    ((runShouldCheckpoint cmInterval100 [50, 49, 1]).1 = [false, false, true] ∧
      (runShouldCheckpoint cmInterval100 [50, 49, 1]).2.pages_since_checkpoint = 0) := by
  refine ⟨?_, ?_, by decide⟩
  · unfold should_checkpoint
    by_cases h : cm.checkpoint_interval ≤ cm.pages_since_checkpoint + n <;>
      simp [h]
  · unfold should_checkpoint
    by_cases h : cm.checkpoint_interval ≤ cm.pages_since_checkpoint + n <;>
      simp [h]

end Govuk

namespace Govuk

/-! ## Claim C10 -/

/-- C10: a successful `save_checkpoint` returns the checkpoint filename and
resets `pages_since_checkpoint` to zero — so after an on-demand save the next
interval-triggered checkpoint again needs a full interval of pages — while a
failed write raises and leaves the manager, counter included, untouched. -/
theorem saveCheckpoint_success_resets_counter_failure_raises
    (cm : CheckpointManager) (st : StateSnapshot) :
    ((save_checkpoint cm st true).2.pages_since_checkpoint = 0 ∧
      (save_checkpoint cm st true).1 =
        Except.ok ("checkpoint_" ++ cm.now_ts ++ ".json") ∧
      (∀ n, (should_checkpoint (save_checkpoint cm st true).2 n).1 = true ↔
        cm.checkpoint_interval ≤ n)) ∧
    ((save_checkpoint cm st false).1 = Except.error "Failed to save checkpoint" ∧
      (save_checkpoint cm st false).2 = cm) := by
  refine ⟨⟨by simp [save_checkpoint], by simp [save_checkpoint], ?_⟩,
    by simp [save_checkpoint], by simp [save_checkpoint]⟩
  intro n
  by_cases h : cm.checkpoint_interval ≤ n <;>
    simp [save_checkpoint, should_checkpoint, h]

/-! ## Claim C9 -/

/-- C9: when `load_checkpoint` yields nothing — the checkpoint file is missing
or cannot be parsed — `restore_from_checkpoint` returns `False` and leaves
every field of the crawler exactly as it was. -/
theorem restore_load_failure_returns_false_and_preserves_state
    (c : Crawler) (filename : String)
    (h : load_checkpoint c.cm filename = none) :
    restore_from_checkpoint c filename = (false, c) := by
  unfold restore_from_checkpoint
  rw [h]

/-- A crawler whose checkpoint directory holds one unparsable file. -/
def corruptCrawler : Crawler :=
  { freshCrawler with
      cm := { freshCM with files := [("broken.json", FileContent.corrupt)] } }

theorem restore_load_failure_witness :
    load_checkpoint corruptCrawler.cm "broken.json" = none ∧
    restore_from_checkpoint corruptCrawler "broken.json" = (false, corruptCrawler) :=
  ⟨by decide,
    restore_load_failure_returns_false_and_preserves_state corruptCrawler
      "broken.json" (by decide)⟩

end Govuk

namespace Govuk

/-! ## Claim C6 -/

theorem dropWhile_replicate (f : ℚ → Bool) (t : ℚ) (n : Nat) :
    (List.replicate n t).dropWhile f = if f t then [] else List.replicate n t := by
  induction n with
  | zero => simp
  | succ n ih =>
    by_cases h : f t <;> simp [List.replicate_succ, List.dropWhile, h, ih]

/-- Cleaning a window of `j` copies of the current time removes nothing. -/
theorem cleanOld_same_time (R j : Nat) (t : ℚ) :
    cleanOldRequests
        { requests_per_second := R, requests_times := List.replicate j t, now := t } =
      { requests_per_second := R, requests_times := List.replicate j t, now := t } := by
  unfold cleanOldRequests
  simp [dropWhile_replicate]

/-- While the window holds fewer than `R` timestamps, a call returns at once,
merely recording the current time. -/
theorem wait_if_needed_under_quota (R j : Nat) (t : ℚ) (hj : j < R) :
    wait_if_needed
        { requests_per_second := R, requests_times := List.replicate j t, now := t } =
      { requests_per_second := R, requests_times := List.replicate (j + 1) t
        now := t } := by
  unfold wait_if_needed
  rw [cleanOld_same_time]
  have hlen : ¬ (R ≤ (List.replicate j t).length) := by simp; omega
  simp only [hlen, if_false]
  simp [List.replicate_succ']

theorem acquireN_fill (R : Nat) (t : ℚ) :
    ∀ (k j : Nat), k + j ≤ R →
      acquireN k
          { requests_per_second := R, requests_times := List.replicate j t, now := t } =
        { requests_per_second := R, requests_times := List.replicate (j + k) t
          now := t } := by
  intro k
  induction k with
  | zero => intro j _; simp [acquireN]
  | succ k ih =>
    intro j h
    rw [acquireN, wait_if_needed_under_quota R j t (by omega), ih (j + 1) (by omega)]
    have heq : j + 1 + k = j + (k + 1) := by omega
    rw [heq]

/-- With a full window of current timestamps, a call sleeps a whole second,
after which the window drains and only the new timestamp remains. -/
theorem wait_if_needed_full_window (R : Nat) (t : ℚ) (hR : 1 ≤ R) :
    wait_if_needed
        { requests_per_second := R, requests_times := List.replicate R t, now := t } =
      { requests_per_second := R, requests_times := [t + 1], now := t + 1 } := by
  obtain ⟨m, rfl⟩ : ∃ m, R = m + 1 := ⟨R - 1, by omega⟩
  unfold wait_if_needed
  rw [cleanOld_same_time]
  have hlen : ((m + 1 : Nat) ≤ (List.replicate (m + 1) t).length) := by simp
  simp only [hlen, if_true]
  have hhead : (List.replicate (m + 1) t).head? = some t := by
    simp [List.replicate_succ]
  rw [hhead]
  have hsleep : (0 : ℚ) < 1 - (t - t) := by norm_num
  simp only [hsleep, if_true]
  unfold cleanOldRequests
  have : (fun x : ℚ => decide (1 ≤ t + (1 - (t - t)) - x)) t = true := by
    norm_num
  rw [dropWhile_replicate]
  norm_num

theorem acquireN_add (a b : Nat) (r : RateLimiter) :
    acquireN (a + b) r = acquireN b (acquireN a r) := by
  induction a generalizing r with
  | zero => simp [acquireN]
  | succ a ih =>
    have hn : a + 1 + b = (a + b) + 1 := by omega
    rw [hn, acquireN, acquireN, ih]

/-- C6 (amended): the limiter is a rolling one-second window of request
timestamps, not a token bucket — a call with fewer than `requests_per_second`
timestamps left in the window returns immediately, and a limiter configured at
rate `R` still needs at least one second of virtual time for `2R` back-to-back
calls (it spends exactly one second on them, all of it in the single sleep of
call `R + 1`). -/
theorem rateLimiter_rolling_window_2R_calls_take_one_second (R : Nat)
    (hR : 1 ≤ R) :
    (∀ r : RateLimiter,
      (cleanOldRequests r).requests_times.length < r.requests_per_second →
        (wait_if_needed r).now = r.now) ∧
    (freshLimiter R).now = 0 ∧
    1 ≤ (acquireN (2 * R) (freshLimiter R)).now := by
  refine ⟨?_, rfl, ?_⟩
  · intro r hr
    unfold wait_if_needed
    have hc : (cleanOldRequests r).requests_per_second = r.requests_per_second := rfl
    have hn : ¬ ((cleanOldRequests r).requests_per_second ≤
        (cleanOldRequests r).requests_times.length) := by omega
    simp only [hn, if_false]
    rfl
  · have h2R : 2 * R = R + (1 + (R - 1)) := by omega
    have hA : acquireN R (freshLimiter R) =
        { requests_per_second := R, requests_times := List.replicate R 0, now := 0 } := by
      have h := acquireN_fill R 0 R 0 (by omega)
      simpa [freshLimiter] using h
    have hB : acquireN 1
        { requests_per_second := R, requests_times := List.replicate R 0, now := (0:ℚ) } =
        { requests_per_second := R, requests_times := [(1:ℚ)], now := 1 } := by
      rw [acquireN, acquireN, wait_if_needed_full_window R 0 hR]
      norm_num
    have hC : acquireN (R - 1)
        { requests_per_second := R, requests_times := [(1:ℚ)], now := 1 } =
        { requests_per_second := R, requests_times := List.replicate R 1, now := 1 } := by
      have h := acquireN_fill R 1 (R - 1) 1 (by omega)
      have h1 : List.replicate 1 (1:ℚ) = [(1:ℚ)] := rfl
      have heq : 1 + (R - 1) = R := by omega
      rw [h1, heq] at h
      exact h
    rw [h2R, acquireN_add, hA, acquireN_add, hB, hC]

theorem rateLimiter_2R_calls_witness :
    1 ≤ 2 ∧ 1 ≤ (acquireN (2 * 2) (freshLimiter 2)).now :=
  ⟨by norm_num,
    (rateLimiter_rolling_window_2R_calls_take_one_second 2 (by norm_num)).2.2⟩

/-- C6 counterexample: the third back-to-back call on a fresh limiter at rate 2
completes at virtual time 1 (the rolling window sleeps a full second), whereas
the token-bucket `acquire` described by the claim would complete it at time
1/2 (wait `(1 − 0)/2`).  The code therefore does not implement the claimed
token bucket. -/
theorem rateLimiter_not_token_bucket_cex :
    (acquireN 3 (freshLimiter 2)).now = 1 ∧
    (specTokenBucketAcquireN 3 (freshBucket 2)).now = 1 / 2 ∧
    (1 : ℚ) ≠ 1 / 2 := by
  refine ⟨?_, ?_, by norm_num⟩
  · have h1 : acquireN 2 (freshLimiter 2) =
        { requests_per_second := 2, requests_times := List.replicate 2 0, now := 0 } := by
      simpa [freshLimiter] using acquireN_fill 2 0 2 0 (by omega)
    have h3 : (3 : Nat) = 2 + 1 := rfl
    rw [h3, acquireN_add, h1, acquireN, acquireN,
      wait_if_needed_full_window 2 0 (by norm_num)]
    norm_num
  · have s1 : specTokenBucketAcquire (freshBucket 2) =
        { rate := 2, capacity := 2, tokens := 1, last_refill := 0, now := 0 } := by
      unfold specTokenBucketAcquire freshBucket
      norm_num
    have s2 : specTokenBucketAcquire
        { rate := 2, capacity := 2, tokens := 1, last_refill := 0, now := 0 } =
        { rate := 2, capacity := 2, tokens := 0, last_refill := 0, now := 0 } := by
      unfold specTokenBucketAcquire
      norm_num
    have s3 : specTokenBucketAcquire
        { rate := 2, capacity := 2, tokens := 0, last_refill := 0, now := 0 } =
        { rate := 2, capacity := 2, tokens := 0, last_refill := 1/2, now := 1/2 } := by
      unfold specTokenBucketAcquire
      norm_num
    rw [show (3 : Nat) = 1 + 1 + 1 from rfl, specTokenBucketAcquireN,
      specTokenBucketAcquireN, specTokenBucketAcquireN, specTokenBucketAcquireN,
      s1, s2, s3]

end Govuk

namespace Govuk

/-! ## Claim C8 -/

/-- C8 (amended): a rate-limited `APIError` on the section's entry path is
recorded — `crawl_section` increments the rate-limit counter, issues no second
fetch of the path, and returns an empty result instead of raising, so the run
continues; a rate-limited `APIError` on a related child link is merely logged:
the loop abandons that branch after its single fetch and continues with the
remaining links, leaving the progress counters untouched. -/
theorem rateLimited_entry_recorded_child_skipped
    (api : Api) (c : Crawler) (sp e : String)
    (h : api sp = Except.error e)
    (hsub : containsSub e "Rate limit exceeded" = true) :
    (crawl_section api c sp =
      (none, { c with fetch_log := c.fetch_log ++ [sp]
                      progress := progressUpdateRateLimited c.progress })) ∧
    (∀ (fuel : Nat) (l : String) (rest : List String) (depth : Nat) (sec : String)
        (c' : Crawler),
      should_process_url c' l = true → api l = Except.error e →
      processLinks api fuel c' (l :: rest) depth sec =
        processLinks api fuel { c' with fetch_log := c'.fetch_log ++ [l] }
          rest depth sec) := by
  constructor
  · unfold crawl_section
    rw [h]
    simp [hsub]
  · intro fuel l rest depth sec c' hsp herr
    simp [processLinks, linkStep, hsp, herr]

/-- A parent content whose only related link is "/c8child". -/
def c8Parent : Content :=
  { base_path := "/c8", document_type := some "guide", updated_at := none
    title := some "T", body := some "B", schema_name := none, error := none
    organisations := [], related_items := [{ base_path := some "/c8child" }]
    related_guides := [], related_content := [] }

/-- A Content Source that serves "/c8" and rate-limits every other path. -/
def c8Api : Api := fun p =>
  if p = "/c8" then Except.ok c8Parent else Except.error "Rate limit exceeded"

theorem rateLimited_entry_recorded_child_skipped_witness :
    (c8Api "/other" = Except.error "Rate limit exceeded" ∧
      containsSub "Rate limit exceeded" "Rate limit exceeded" = true) ∧
    crawl_section c8Api freshCrawler "/other" =
      (none, { freshCrawler with
                 fetch_log := freshCrawler.fetch_log ++ ["/other"]
                 progress := progressUpdateRateLimited freshCrawler.progress }) ∧
    processLinks c8Api 1 freshCrawler ["/c8child"] 0 "/c8" =
      processLinks c8Api 1
        { freshCrawler with fetch_log := freshCrawler.fetch_log ++ ["/c8child"] }
        [] 0 "/c8" := by
  have h := rateLimited_entry_recorded_child_skipped c8Api freshCrawler "/other"
    "Rate limit exceeded" (by rfl) (by decide)
  exact ⟨⟨by rfl, by decide⟩, h.1,
    h.2 1 "/c8child" [] 0 "/c8" freshCrawler (by decide) (by rfl)⟩

/-- C8 counterexample: rate limiting on a related child link is not recorded
as a progress update — the crawl of "/c8" fetches "/c8child", receives the
rate-limited error, and finishes with the rate-limit counter still at zero,
contradicting the claim that the counter is incremented "whether on a
section's entry path or on a related child link". -/
theorem rateLimited_child_not_recorded_cex :
    c8Api "/c8child" = Except.error "Rate limit exceeded" ∧
    (crawl_section c8Api freshCrawler "/c8").2.fetch_log = ["/c8", "/c8child"] ∧
    (crawl_section c8Api freshCrawler "/c8").2.progress.rate_limit_hits = 0 := by
  refine ⟨by rfl, by decide, by decide⟩

end Govuk

namespace Govuk

/-! ## Claim C3 -/

theorem QLt_irrefl (a : QItem) : ¬ QLt a a := by
  rintro (h | ⟨-, h | ⟨-, h⟩⟩)
  · exact lt_irrefl _ h
  · exact asymm_of (List.Lex ((· < ·) : ℕ → ℕ → Prop)) h h
  · exact lt_irrefl _ h

theorem QLt_trans {a b c : QItem} (h1 : QLt a b) (h2 : QLt b c) : QLt a c := by
  obtain h1 | ⟨e1, h1⟩ := h1 <;> obtain h2 | ⟨e2, h2⟩ := h2
  · exact Or.inl (lt_trans h1 h2)
  · exact Or.inl (by omega)
  · exact Or.inl (by omega)
  · refine Or.inr ⟨e1.trans e2, ?_⟩
    obtain h1 | ⟨u1, h1⟩ := h1 <;> obtain h2 | ⟨u2, h2⟩ := h2
    · exact Or.inl (trans_of (List.Lex ((· < ·) : ℕ → ℕ → Prop)) h1 h2)
    · exact Or.inl (by rw [← u2]; exact h1)
    · exact Or.inl (by rw [u1]; exact h2)
    · exact Or.inr ⟨u1.trans u2, lt_trans h1 h2⟩

theorem QLt_asymm {a b : QItem} (h : QLt a b) : ¬ QLt b a :=
  fun h' => QLt_irrefl a (QLt_trans h h')

/-- Equality of the Python comparison keys of two queue entries. -/
def keyEq (a b : QItem) : Prop :=
  a.priority = b.priority ∧ urlCodes a.url = urlCodes b.url ∧ a.depth = b.depth

theorem QLt_trichotomy (a b : QItem) : QLt a b ∨ keyEq a b ∨ QLt b a := by
  rcases lt_trichotomy a.priority b.priority with hp | hp | hp
  · exact Or.inl (Or.inl hp)
  · rcases trichotomous_of (List.Lex ((· < ·) : ℕ → ℕ → Prop))
        (urlCodes a.url) (urlCodes b.url) with hu | hu | hu
    · exact Or.inl (Or.inr ⟨hp, Or.inl hu⟩)
    · rcases lt_trichotomy a.depth b.depth with hd | hd | hd
      · exact Or.inl (Or.inr ⟨hp, Or.inr ⟨hu, hd⟩⟩)
      · exact Or.inr (Or.inl ⟨hp, hu, hd⟩)
      · exact Or.inr (Or.inr (Or.inr ⟨hp.symm, Or.inr ⟨hu.symm, hd⟩⟩))
    · exact Or.inr (Or.inr (Or.inr ⟨hp.symm, Or.inl hu⟩))
  · exact Or.inr (Or.inr (Or.inl hp))

theorem QLt_congr_left {a b c : QItem} (e : keyEq a b) (h : QLt a c) : QLt b c := by
  obtain ⟨ep, eu, ed⟩ := e
  obtain h | ⟨hp, h | ⟨hu, hd⟩⟩ := h
  · exact Or.inl (by omega)
  · exact Or.inr ⟨by omega, Or.inl (by rw [← eu]; exact h)⟩
  · exact Or.inr ⟨by omega, Or.inr ⟨by rw [← eu]; exact hu, by omega⟩⟩

theorem not_QLt_trans {o m f : QItem} (h1 : ¬ QLt o m) (h2 : ¬ QLt m f) :
    ¬ QLt o f := by
  intro hof
  rcases QLt_trichotomy o m with h | h | h
  · exact h1 h
  · exact h2 (QLt_congr_left h hof)
  · exact h2 (QLt_trans h hof)

theorem foldlMin_spec (xs : List QItem) :
    ∀ x : QItem,
      (xs.foldl (fun m y => if QLt y m then y else m) x = x ∨
        xs.foldl (fun m y => if QLt y m then y else m) x ∈ xs) ∧
      (∀ y, (y = x ∨ y ∈ xs) →
        ¬ QLt y (xs.foldl (fun m y => if QLt y m then y else m) x)) := by
  induction xs with
  | nil =>
    intro x
    refine ⟨Or.inl rfl, ?_⟩
    rintro y (rfl | h)
    · exact QLt_irrefl y
    · cases h
  | cons b ys ih =>
    intro x
    rw [List.foldl_cons]
    by_cases hq : QLt b x
    · rw [if_pos hq]
      obtain ⟨hm, hall⟩ := ih b
      refine ⟨?_, ?_⟩
      · rcases hm with h | h
        · exact Or.inr (by rw [h]; exact List.mem_cons_self b ys)
        · exact Or.inr (List.mem_cons_of_mem b h)
      · rintro y (rfl | hy)
        · exact not_QLt_trans (QLt_asymm hq) (hall b (Or.inl rfl))
        · rcases List.mem_cons.mp hy with rfl | h
          · exact hall y (Or.inl rfl)
          · exact hall y (Or.inr h)
    · rw [if_neg hq]
      obtain ⟨hm, hall⟩ := ih x
      refine ⟨?_, ?_⟩
      · rcases hm with h | h
        · exact Or.inl h
        · exact Or.inr (List.mem_cons_of_mem b h)
      · rintro y (rfl | hy)
        · exact hall y (Or.inl rfl)
        · rcases List.mem_cons.mp hy with rfl | h
          · exact not_QLt_trans hq (hall x (Or.inl rfl))
          · exact hall y (Or.inr h)

theorem queueMin_spec (q : List QItem) (m : QItem) (h : queueMin q = some m) :
    m ∈ q ∧ ∀ x ∈ q, ¬ QLt x m := by
  match q, h with
  | x :: xs, h =>
    rw [queueMin] at h
    injection h with h
    obtain ⟨hm, hall⟩ := foldlMin_spec xs x
    rw [h] at hm hall
    constructor
    · rcases hm with h' | h'
      · rw [← h']; exact List.mem_cons_self m xs
      · exact List.mem_cons_of_mem x h'
    · intro z hz
      rcases List.mem_cons.mp hz with rfl | hz
      · exact hall z (Or.inl rfl)
      · exact hall z (Or.inr hz)

/-- C3 (amended): `url_queue.get()` returns a pending entry that is minimal in
Python's lexicographic order on the stored tuples `(priority, url, depth)` —
so its priority value is minimal — but ties between equal priority values are
broken by code-point order on the URL (then by depth), not by insertion
order. -/
theorem dequeue_returns_tuple_minimum (q : List QItem) (m : QItem)
    (rest : List QItem) (h : queueGet q = some (m, rest)) :
    m ∈ q ∧ (∀ x ∈ q, ¬ QLt x m) ∧ (∀ x ∈ q, m.priority ≤ x.priority) ∧
    rest = q.eraseP (fun y => decide (y = m)) := by
  unfold queueGet at h
  cases hq : queueMin q with
  | none => rw [hq] at h; cases h
  | some m' =>
    rw [hq] at h
    injection h with h
    obtain ⟨rfl, hrest⟩ := Prod.mk.inj h
    obtain ⟨hmem, hall⟩ := queueMin_spec q m' hq
    refine ⟨hmem, hall, ?_, hrest.symm⟩
    intro x hx
    by_contra hlt
    exact hall x hx (Or.inl (by omega))

theorem dequeue_returns_tuple_minimum_witness :
    queueGet [⟨1, "/b", 0⟩, ⟨1, "/a", 0⟩] =
        some (⟨1, "/a", 0⟩, [⟨1, "/b", 0⟩]) ∧
    ((⟨1, "/a", 0⟩ : QItem) ∈ [(⟨1, "/b", 0⟩ : QItem), ⟨1, "/a", 0⟩] ∧
      (∀ x ∈ [(⟨1, "/b", 0⟩ : QItem), ⟨1, "/a", 0⟩], ¬ QLt x ⟨1, "/a", 0⟩) ∧
      (∀ x ∈ [(⟨1, "/b", 0⟩ : QItem), ⟨1, "/a", 0⟩],
        (⟨1, "/a", 0⟩ : QItem).priority ≤ x.priority) ∧
      [(⟨1, "/b", 0⟩ : QItem)] =
        [(⟨1, "/b", 0⟩ : QItem), ⟨1, "/a", 0⟩].eraseP
          (fun y => decide (y = ⟨1, "/a", 0⟩))) :=
  ⟨by decide, dequeue_returns_tuple_minimum _ _ _ (by decide)⟩

/-- The optimised crawler with its scoring attributes assigned (the
constructor omits them), as a test would set them up. -/
def ocAttrs : OptCrawler :=
  { base := freshCrawler, seen_urls := [], url_queue := []
    update_frequency := some [], page_metrics := some [] }

def ocB : OptCrawler :=
  { ocAttrs with url_queue := [⟨1, "/b", 0⟩], seen_urls := ["/b"] }

def ocBA : OptCrawler :=
  { ocAttrs with url_queue := [⟨1, "/b", 0⟩, ⟨1, "/a", 0⟩]
                 seen_urls := ["/b", "/a"] }

/-- C3 counterexample: enqueue "/b" then "/a"; both receive priority 1, so
insertion-order tie-breaking would dequeue "/b" first, but the heap's tuple
order dequeues "/a" (code-point order on the URL). -/
theorem dequeue_tie_not_insertion_order_cex :
    add_url_to_queue ocAttrs "/b" none 0 = Except.ok ocB ∧
    add_url_to_queue ocB "/a" none 0 = Except.ok ocBA ∧
    ocBA.url_queue = [⟨1, "/b", 0⟩, ⟨1, "/a", 0⟩] ∧
    queueGet ocBA.url_queue = some (⟨1, "/a", 0⟩, [⟨1, "/b", 0⟩]) :=
  ⟨by rfl, by rfl, by rfl, by decide⟩

end Govuk

namespace Govuk

/-! ## Claim C5 -/

/-- C5 (amended): the frontier's `add_url_to_queue` rejects exactly the paths
already in its membership structure; root-marker and excluded-pattern
filtering is applied only by the base crawler's `_should_process_url` during
related-link expansion, not by the enqueue operation.  An accepted path is
scored (always a positive priority), appended to the queue and added to the
membership structure, so re-submitting it before it is processed is rejected —
though with the constructor's state the scoring attributes are absent and the
score computation raises `AttributeError` instead. -/
theorem enqueue_rejects_only_already_seen (oc : OptCrawler) (url : String)
    (ct : Option String) (depth : Nat) :
    (url ∈ oc.seen_urls → add_url_to_queue oc url ct depth = Except.ok oc) ∧
    (url ∉ oc.seen_urls → oc.update_frequency = none →
      add_url_to_queue oc url ct depth =
        Except.error "AttributeError: update_frequency") ∧
    (∀ p : Int, url ∉ oc.seen_urls →
      calculate_priority oc url ct depth = Except.ok p →
      1 ≤ p ∧
      add_url_to_queue oc url ct depth = Except.ok
        { oc with url_queue := oc.url_queue ++ [⟨p, url, depth⟩]
                  seen_urls := oc.seen_urls ++ [url] } ∧
      (∀ (ct' : Option String) (depth' : Nat),
        add_url_to_queue
            { oc with url_queue := oc.url_queue ++ [⟨p, url, depth⟩]
                      seen_urls := oc.seen_urls ++ [url] } url ct' depth' =
          Except.ok
            { oc with url_queue := oc.url_queue ++ [⟨p, url, depth⟩]
                      seen_urls := oc.seen_urls ++ [url] })) ∧
    (∀ c : Crawler, strStartsWith url "/" = false →
      should_process_url c url = false) ∧
    (∀ c : Crawler,
      (containsSub url "/assets/" || containsSub url "/images/" ||
        containsSub url "/attachments/") = true →
      should_process_url c url = false) := by
  refine ⟨?_, ?_, ?_, ?_, ?_⟩
  · intro h
    simp [add_url_to_queue, h]
  · intro h hattr
    simp only [add_url_to_queue, if_neg h]
    unfold calculate_priority
    rw [hattr]
  · intro p h hp
    have h1 : 1 ≤ p := by
      unfold calculate_priority at hp
      rcases huf : oc.update_frequency with _ | uf <;> simp only [huf] at hp
      · cases hp
      · rcases hpm : oc.page_metrics with _ | pm <;> simp only [hpm] at hp
        · cases hp
        · injection hp with hv
          rw [← hv]
          exact le_max_left 1 _
    refine ⟨h1, ?_, ?_⟩
    · simp [add_url_to_queue, if_neg h, hp]
    · intro ct' depth'
      have hmem : url ∈ oc.seen_urls ++ [url] := by simp
      simp [add_url_to_queue, hmem]
  · intro c h
    unfold should_process_url
    by_cases hm : url ∈ c.visited_urls
    · simp [hm]
    · simp [hm, h]
  · intro c h
    unfold should_process_url
    by_cases hm : url ∈ c.visited_urls
    · simp [hm]
    · by_cases hs : strStartsWith url "/"
      · simp [hm, hs, h]
      · simp [hm, hs]

theorem enqueue_rejects_only_already_seen_witness :
    (("/x" ∉ ocAttrs.seen_urls) ∧
      calculate_priority ocAttrs "/x" none 0 = Except.ok 1) ∧
    (1 ≤ (1 : Int) ∧
      add_url_to_queue ocAttrs "/x" none 0 = Except.ok
        { ocAttrs with url_queue := ocAttrs.url_queue ++ [⟨1, "/x", 0⟩]
                       seen_urls := ocAttrs.seen_urls ++ ["/x"] } ∧
      (∀ (ct' : Option String) (depth' : Nat),
        add_url_to_queue
            { ocAttrs with url_queue := ocAttrs.url_queue ++ [⟨1, "/x", 0⟩]
                           seen_urls := ocAttrs.seen_urls ++ ["/x"] } "/x" ct' depth' =
          Except.ok
            { ocAttrs with url_queue := ocAttrs.url_queue ++ [⟨1, "/x", 0⟩]
                           seen_urls := ocAttrs.seen_urls ++ ["/x"] })) :=
  ⟨⟨by decide, by rfl⟩,
    (enqueue_rejects_only_already_seen ocAttrs "/x" none 0).2.2.1 1 (by decide) (by rfl)⟩

def ocAsset : OptCrawler :=
  { ocAttrs with url_queue := [⟨1, "/assets/logo.png", 0⟩]
                 seen_urls := ["/assets/logo.png"] }

/-- C5 counterexample: `add_url_to_queue` accepts a path containing the
excluded segment "/assets/" and a path that does not start with the "/"
root-relative marker — neither rejection the claim promises happens at the
frontier. -/
theorem enqueue_accepts_excluded_and_unrooted_cex :
    containsSub "/assets/logo.png" "/assets/" = true ∧
    add_url_to_queue ocAttrs "/assets/logo.png" none 0 = Except.ok ocAsset ∧
    ocAsset.url_queue = [⟨1, "/assets/logo.png", 0⟩] ∧
    strStartsWith "nomarker" "/" = false ∧
    add_url_to_queue ocAttrs "nomarker" none 0 =
      Except.ok { ocAttrs with url_queue := [⟨1, "nomarker", 0⟩]
                               seen_urls := ["nomarker"] } :=
  ⟨by decide, by rfl, by rfl, by decide, by rfl⟩

end Govuk

namespace Govuk

/-! ## Claim C4 -/

/-- The manager after checkpointing the optimised crawler's standard state
dictionary. -/
def savedManager (oc : OptCrawler) : CheckpointManager :=
  (save_checkpoint oc.base.cm (optBuildSnapshot oc) true).2

/-- The filename a successful save returns. -/
def savedName (oc : OptCrawler) : String :=
  "checkpoint_" ++ oc.base.cm.now_ts ++ ".json"

/-- Restoring the checkpoint just saved from `oc` into the crawler `oc0`
(which shares the checkpoint store). -/
def restoredInto (oc oc0 : OptCrawler) : Bool × OptCrawler :=
  opt_restore_from_checkpoint
    { oc0 with base := { oc0.base with cm := savedManager oc } } (savedName oc)

theorem load_after_save (cm : CheckpointManager) (st : StateSnapshot) :
    load_checkpoint (save_checkpoint cm st true).2
      ("checkpoint_" ++ cm.now_ts ++ ".json") = some st := by
  unfold save_checkpoint load_checkpoint
  simp

theorem optBuildSnapshot_ne_empty (oc : OptCrawler) :
    ¬ optBuildSnapshot oc = emptySnapshot := by
  simp [optBuildSnapshot, emptySnapshot]

theorem qitem_tuple_roundtrip (q : List QItem) :
    ((q.map (fun i => (i.priority, i.url, i.depth))).map
      (fun t => ({ priority := t.1, url := t.2.1, depth := t.2.2 } : QItem))) = q := by
  induction q with
  | nil => rfl
  | cons a q ih => simp [ih]

theorem base_restore_after_save (b : Crawler) (oc : OptCrawler) :
    restore_from_checkpoint { b with cm := savedManager oc } (savedName oc) =
      (true,
        { b with
            cm := savedManager oc
            scan_metadata := oc.base.scan_metadata
            sections := oc.base.sections
            visited_urls := oc.base.visited_urls
            progress := restoreProgress b.progress (getStatus oc.base.progress) }) := by
  have hload : load_checkpoint (savedManager oc) (savedName oc) =
      some (optBuildSnapshot oc) :=
    load_after_save oc.base.cm (optBuildSnapshot oc)
  unfold restore_from_checkpoint
  simp only [hload]
  rw [if_neg (optBuildSnapshot_ne_empty oc)]
  rfl

/-- C4 (amended): saving the optimised crawler's checkpoint state and
restoring the returned name into a crawler sharing the store succeeds and
reproduces the scan metadata, the section aggregates, the visited-key list and
the pending frontier items (appended to the target's queue), and — of the
progress tracker — only the `rate_limit_hits`, `current_section` and
`content_types` attributes, whose snapshot keys happen to match attribute
names; `sections_processed`, `total_links` and `depth_counts` keep the
target's old values because `get_status` snapshots them under different keys,
and the probabilistic membership filter is left untouched rather than being
rebuilt from the visited keys. -/
theorem checkpoint_roundtrip_partial_restore (oc oc0 : OptCrawler) :
    (save_checkpoint oc.base.cm (optBuildSnapshot oc) true).1 =
      Except.ok (savedName oc) ∧
    (restoredInto oc oc0).1 = true ∧
    (restoredInto oc oc0).2.base.scan_metadata = oc.base.scan_metadata ∧
    (restoredInto oc oc0).2.base.sections = oc.base.sections ∧
    (restoredInto oc oc0).2.base.visited_urls = oc.base.visited_urls ∧
    (restoredInto oc oc0).2.url_queue = oc0.url_queue ++ oc.url_queue ∧
    (restoredInto oc oc0).2.seen_urls = oc0.seen_urls ∧
    (restoredInto oc oc0).2.base.progress.rate_limit_hits =
      oc.base.progress.rate_limit_hits ∧
    (restoredInto oc oc0).2.base.progress.current_section =
      oc.base.progress.current_section ∧
    (restoredInto oc oc0).2.base.progress.content_types =
      oc.base.progress.content_types ∧
    (restoredInto oc oc0).2.base.progress.sections_processed =
      oc0.base.progress.sections_processed ∧
    (restoredInto oc oc0).2.base.progress.total_links =
      oc0.base.progress.total_links ∧
    (restoredInto oc oc0).2.base.progress.depth_counts =
      oc0.base.progress.depth_counts := by
  have hload : load_checkpoint (savedManager oc) (savedName oc) =
      some (optBuildSnapshot oc) :=
    load_after_save oc.base.cm (optBuildSnapshot oc)
  have hres : restoredInto oc oc0 =
      (true,
        { oc0 with
            base :=
              { oc0.base with
                  cm := savedManager oc
                  scan_metadata := oc.base.scan_metadata
                  sections := oc.base.sections
                  visited_urls := oc.base.visited_urls
                  progress := restoreProgress oc0.base.progress
                    (getStatus oc.base.progress) }
            url_queue := oc0.url_queue ++ oc.url_queue }) := by
    unfold restoredInto opt_restore_from_checkpoint
    simp only [hload]
    rw [if_neg (optBuildSnapshot_ne_empty oc)]
    rw [base_restore_after_save oc0.base oc]
    simp only [optBuildSnapshot]
    rw [qitem_tuple_roundtrip]
    simp
  refine ⟨rfl, ?_, ?_, ?_, ?_, ?_, ?_, ?_, ?_, ?_, ?_, ?_, ?_⟩ <;>
    rw [hres] <;> rfl

/-- A crawler with non-trivial progress counters. -/
def richProgress : ScanProgress :=
  { sections_processed := 1, total_links := 3, current_section := "/s"
    rate_limit_hits := 2, depth_counts := [("0", 1)]
    content_types := [("guide", 1)] }

def ocRich : OptCrawler :=
  { base := { freshCrawler with progress := richProgress, visited_urls := ["/s"] }
    seen_urls := ["/s"], url_queue := [⟨1, "/x", 1⟩]
    update_frequency := none, page_metrics := none }

def ocFreshTarget : OptCrawler :=
  { base := { freshCrawler with cm := savedManager ocRich }
    seen_urls := [], url_queue := []
    update_frequency := none, page_metrics := none }

/-- C4 counterexample: after a save/restore round trip the crawler's progress
counters are not restored — the snapshot stores them under the `get_status`
keys (`total_links_found`, `sections_analyzed`, `depth_distribution`), which
`setattr` writes as attributes nothing reads — so the restored tracker reports
0 total links where the saved state had 3.  The round trip is therefore not
equivalent in every field. -/
theorem checkpoint_roundtrip_loses_progress_counters_cex :
    ocRich.base.progress.total_links = 3 ∧
    (opt_restore_from_checkpoint ocFreshTarget (savedName ocRich)).1 = true ∧
    (opt_restore_from_checkpoint ocFreshTarget
      (savedName ocRich)).2.base.progress.total_links = 0 ∧
    (opt_restore_from_checkpoint ocFreshTarget
      (savedName ocRich)).2.base.progress.sections_processed = 0 := by
  refine ⟨rfl, by decide, by decide, by decide⟩

end Govuk

namespace Govuk

/-! ## Claim C7 -/

theorem markVisited_fetch_log (c : Crawler) (p : String) (d : Nat) (t : String) :
    (markVisited c p d t).fetch_log = c.fetch_log := rfl

theorem ensureSection_fetch_log (c : Crawler) (s : String) :
    (ensureSection c s).fetch_log = c.fetch_log := by
  unfold ensureSection
  split <;> rfl

theorem bumpSectionCounters_fetch_log (c : Crawler) (s st : String) (d : Nat) :
    (bumpSectionCounters c s st d).fetch_log = c.fetch_log := rfl

theorem appendPage_fetch_log (c : Crawler) (s : String) (pg : Page) :
    (appendPage c s pg).fetch_log = c.fetch_log := rfl

theorem checkpointStep_fetch_log (c : Crawler) :
    (checkpointStep c).fetch_log = c.fetch_log := by
  unfold checkpointStep
  dsimp only
  split <;> rfl

/-- Any reflexive transitive relation that is preserved by every elementary
step of `_process_content` — including appending a page whose depth respects
the crawler's bound — is preserved by the whole traversal. -/
theorem processContent_preserves (api : Api) (R : Crawler → Crawler → Prop)
    (hrefl : ∀ c, R c c)
    (htrans : ∀ {a b c : Crawler}, R a b → R b c → R a c)
    (hmd : ∀ {a b : Crawler}, R a b → b.max_depth = a.max_depth)
    (hmark : ∀ c path depth ctype, R c (markVisited c path depth ctype))
    (hensure : ∀ c sec, R c (ensureSection c sec))
    (hbump : ∀ c sec status depth, R c (bumpSectionCounters c sec status depth))
    (happend : ∀ c sec page, page.depth_level ≤ c.max_depth →
      R c (appendPage c sec page))
    (hcp : ∀ c, R c (checkpointStep c))
    (hlog : ∀ c l, R c { c with fetch_log := c.fetch_log ++ [l] }) :
    ∀ (fuel : Nat) (c : Crawler) (content : Content) (depth : Nat) (sec : String),
      R c (processContent api fuel c content depth sec) := by
  intro fuel
  induction fuel with
  | zero => intro c _ _ _; exact hrefl c
  | succ fuel ih =>
    have hstep : ∀ (depth : Nat) (sec : String) (acc : Crawler) (l : String),
        R acc (linkStep api fuel depth sec acc l) := by
      intro depth sec acc l
      unfold linkStep
      split
      · cases api l with
        | ok cc => exact htrans (hlog acc l) (ih _ cc (depth + 1) sec)
        | error e => exact hlog acc l
      · exact hrefl acc
    have hlinks : ∀ (links : List String) (acc : Crawler) (depth : Nat) (sec : String),
        R acc (processLinks api fuel acc links depth sec) := by
      intro links
      induction links with
      | nil => intro acc _ _; exact hrefl acc
      | cons l rest ihl =>
        intro acc depth sec
        unfold processLinks at ihl ⊢
        rw [List.foldl_cons]
        exact htrans (hstep depth sec acc l) (ihl _ depth sec)
    intro c content depth sec
    rw [processContent_succ]
    split
    · exact hrefl c
    · split
      · exact hrefl c
      · rename_i hdep _
        have hdle : depth ≤ c.max_depth := by omega
        set c3 := bumpSectionCounters
          (ensureSection
            (markVisited c content.base_path depth (content.document_type.getD "unknown"))
            sec)
          sec (if isPlaceholderContent content then "placeholder" else "active") depth with hc3
        have h3 : R c c3 :=
          htrans (hmark c _ depth _) (htrans (hensure _ sec) (hbump _ sec _ depth))
        set c4 := if depth < c.max_depth then
            processLinks api fuel c3
              (if depth < c.max_depth then getRelatedLinks content else []) depth sec
          else c3 with hc4
        have h4 : R c c4 := by
          rw [hc4]
          split
          · exact htrans h3 (hlinks _ c3 depth sec)
          · exact h3
        have hmd4 : c4.max_depth = c.max_depth := hmd h4
        exact htrans h4 (htrans (happend c4 sec _ (by rw [hmd4]; exact hdle)) (hcp _))

/-- Every page recorded in any section's page list has depth at most `D`. -/
def SecPagesLe (D : Nat) (S : List (String × SectionData)) : Prop :=
  ∀ e ∈ S, ∀ p ∈ e.2.pages, p.depth_level ≤ D

theorem secPagesLe_updateA {D : Nat} {S : List (String × SectionData)}
    {k : String} {f : SectionData → SectionData} (hS : SecPagesLe D S)
    (hf : ∀ d, (∀ p ∈ d.pages, p.depth_level ≤ D) →
      ∀ p ∈ (f d).pages, p.depth_level ≤ D) :
    SecPagesLe D (updateA S k f) := by
  intro e he
  unfold updateA at he
  obtain ⟨e0, he0, heq⟩ := List.mem_map.mp he
  by_cases h : e0.1 = k
  · rw [if_pos h] at heq
    rw [← heq]
    exact hf e0.2 (hS e0 he0)
  · rw [if_neg h] at heq
    rw [← heq]
    exact hS e0 he0

theorem secPagesLe_append_empty {D : Nat} {S : List (String × SectionData)}
    {sec : String} (hS : SecPagesLe D S) :
    SecPagesLe D (S ++ [(sec, emptySection)]) := by
  intro e he
  rcases List.mem_append.mp he with h | h
  · exact hS e h
  · intro p hp
    simp only [List.mem_singleton] at h
    rw [h] at hp
    cases hp

/-- The C7 relation: the traversal never changes `max_depth` and never records
a page deeper than it. -/
def DepthInv (a b : Crawler) : Prop :=
  b.max_depth = a.max_depth ∧
  (SecPagesLe a.max_depth a.sections → SecPagesLe a.max_depth b.sections)

theorem processContent_depthInv (api : Api) (fuel : Nat) (c : Crawler)
    (content : Content) (depth : Nat) (sec : String) :
    DepthInv c (processContent api fuel c content depth sec) := by
  refine processContent_preserves api DepthInv ?_ ?_ ?_ ?_ ?_ ?_ ?_ ?_ ?_ fuel c
    content depth sec
  · exact fun c => ⟨rfl, id⟩
  · rintro a b c ⟨hab1, hab2⟩ ⟨hbc1, hbc2⟩
    refine ⟨hbc1.trans hab1, fun h => ?_⟩
    have := hbc2
    rw [hab1] at this
    exact this (hab2 h)
  · exact fun h => h.1
  · exact fun c path depth ctype => ⟨rfl, id⟩
  · intro c sec
    unfold ensureSection
    split
    · exact ⟨rfl, id⟩
    · exact ⟨rfl, fun h => secPagesLe_append_empty h⟩
  · intro c sec status depth
    refine ⟨rfl, fun h => ?_⟩
    unfold bumpSectionCounters
    refine secPagesLe_updateA h ?_
    intro d hd p hp
    unfold bumpSection at hp
    dsimp only at hp
    split at hp <;> exact hd p hp
  · intro c sec page hpage
    refine ⟨rfl, fun h => ?_⟩
    unfold appendPage
    dsimp only
    refine secPagesLe_updateA h ?_
    intro d hd p hp
    rcases List.mem_append.mp hp with h' | h'
    · exact hd p h'
    · simp only [List.mem_singleton] at h'
      rw [h']
      exact hpage
  · intro c
    unfold checkpointStep
    dsimp only
    split
    · exact ⟨rfl, id⟩
    · exact ⟨rfl, id⟩
  · exact fun c l => ⟨rfl, id⟩

/-- C7: a `_process_content` call never changes `max_depth`; if every recorded
page's `depth_level` is at most `max_depth` beforehand, the same holds
afterwards; a work item whose depth exceeds `max_depth` is discarded
untouched — nothing fetched (the fetch log is part of the unchanged state) and
nothing recorded; and when `depth` is not strictly below `max_depth` no
related link is fetched at all, so children are only ever expanded (at
`depth + 1`) from parents with `depth < max_depth`. -/
theorem depth_limit_respected (api : Api) (fuel : Nat) (c : Crawler)
    (content : Content) (depth : Nat) (sec : String)
    (hinv : SecPagesLe c.max_depth c.sections) :
    ((processContent api fuel c content depth sec).max_depth = c.max_depth ∧
      SecPagesLe c.max_depth (processContent api fuel c content depth sec).sections) ∧
    (c.max_depth < depth → processContent api fuel c content depth sec = c) ∧
    (c.max_depth ≤ depth →
      (processContent api fuel c content depth sec).fetch_log = c.fetch_log) := by
  obtain ⟨h1, h2⟩ := processContent_depthInv api fuel c content depth sec
  refine ⟨⟨h1, h2 hinv⟩, ?_, ?_⟩
  · intro h
    cases fuel with
    | zero => rfl
    | succ fuel =>
      rw [processContent_succ]
      rw [if_pos h]
  · intro h
    cases fuel with
    | zero => rfl
    | succ fuel =>
      rw [processContent_succ]
      split
      · rfl
      · split
        · rfl
        · have hnotlt : ¬ depth < c.max_depth := by omega
          dsimp only
          simp only [hnotlt, if_false, checkpointStep_fetch_log, appendPage_fetch_log,
            bumpSectionCounters_fetch_log, ensureSection_fetch_log, markVisited_fetch_log]

end Govuk

namespace Govuk

theorem depth_limit_respected_witness :
    SecPagesLe freshCrawler.max_depth freshCrawler.sections ∧
    (((processContent c8Api 2 freshCrawler c8Parent 2 "/c8").max_depth =
        freshCrawler.max_depth ∧
      SecPagesLe freshCrawler.max_depth
        (processContent c8Api 2 freshCrawler c8Parent 2 "/c8").sections) ∧
    (freshCrawler.max_depth < 2 →
      processContent c8Api 2 freshCrawler c8Parent 2 "/c8" = freshCrawler) ∧
    (freshCrawler.max_depth ≤ 2 →
      (processContent c8Api 2 freshCrawler c8Parent 2 "/c8").fetch_log =
        freshCrawler.fetch_log)) :=
  ⟨fun e he => absurd he (List.not_mem_nil e),
    depth_limit_respected c8Api 2 freshCrawler c8Parent 2 "/c8"
      (fun e he => absurd he (List.not_mem_nil e))⟩

end Govuk

namespace Govuk

/-! ## Claim C1 -/

theorem lookupA_append {α : Type} (S T : List (String × α)) (k : String) :
    lookupA (S ++ T) k =
      match lookupA S k with
      | some v => some v
      | none => lookupA T k := by
  induction S with
  | nil => simp [lookupA]
  | cons e S ih =>
    by_cases h : e.1 = k
    · simp [lookupA, List.find?_cons, h]
    · unfold lookupA at ih ⊢
      rw [List.cons_append, List.find?_cons, List.find?_cons]
      have hd : (decide (e.1 = k)) = false := by simp [h]
      rw [hd]
      exact ih

theorem lookupA_updateA {α : Type} (S : List (String × α)) (k : String)
    (f : α → α) (k' : String) :
    lookupA (updateA S k f) k' =
      if k' = k then (lookupA S k').map f else lookupA S k' := by
  induction S with
  | nil => simp [lookupA, updateA]
  | cons e S ih =>
    unfold lookupA updateA at ih ⊢
    by_cases hek : e.1 = k <;> by_cases hek' : e.1 = k'
    · have hkk : k' = k := hek'.symm.trans hek
      simp [List.find?_cons, hek, hek', hkk]
    · have hkk : ¬ k' = k := fun hc => hek' (hek.trans hc.symm)
      have hkk' : ¬ k = k' := fun hc => hkk hc.symm
      simp only [List.map_cons, List.find?_cons] at ih ⊢
      simp [hek, hek', hkk, hkk'] at ih ⊢
      exact ih
    · have hkk : ¬ k' = k := fun hc => hek (hek'.trans hc)
      simp [List.find?_cons, hek, hek', hkk]
    · simp only [List.map_cons, List.find?_cons] at ih ⊢
      simp [hek, hek'] at ih ⊢
      exact ih

theorem lookupA_single {α : Type} (k' k : String) (v : α) :
    lookupA [(k, v)] k' = if k' = k then some v else none := by
  by_cases h : k' = k
  · simp [lookupA, List.find?_cons, h]
  · have h' : ¬ k = k' := fun hc => h hc.symm
    simp [lookupA, List.find?_cons, h, h']

/-- The `total_pages` counter a section key reads back (0 when absent). -/
def totOf (S : List (String × SectionData)) (k : String) : Nat :=
  ((lookupA S k).map (fun d => d.total_pages)).getD 0

/-- The page-list length a section key reads back (0 when absent). -/
def lenOf (S : List (String × SectionData)) (k : String) : Nat :=
  ((lookupA S k).map (fun d => d.pages.length)).getD 0

/-- `active_pages + placeholder_pages = total_pages` for every stored section. -/
def APT (S : List (String × SectionData)) : Prop :=
  ∀ e ∈ S, e.2.active_pages + e.2.placeholder_pages = e.2.total_pages

/-- Every parseable checkpoint file whose state carries a section map
satisfies `APT`. -/
def filesAPT (fs : List (String × FileContent)) : Prop :=
  ∀ e ∈ fs, ∀ cd : CheckpointData, e.2 = FileContent.good cd →
    ∀ S, cd.state.sections = some S → APT S

end Govuk

namespace Govuk

theorem markVisited_sections (c : Crawler) (p : String) (d : Nat) (t : String) :
    (markVisited c p d t).sections = c.sections := rfl

theorem markVisited_cm (c : Crawler) (p : String) (d : Nat) (t : String) :
    (markVisited c p d t).cm = c.cm := rfl

theorem ensureSection_cm (c : Crawler) (s : String) :
    (ensureSection c s).cm = c.cm := by
  unfold ensureSection
  split <;> rfl

theorem bumpSectionCounters_cm (c : Crawler) (s st : String) (d : Nat) :
    (bumpSectionCounters c s st d).cm = c.cm := rfl

theorem appendPage_cm (c : Crawler) (s : String) (pg : Page) :
    (appendPage c s pg).cm = c.cm := rfl

theorem lookupA_ensureSection (c : Crawler) (sec k : String) :
    lookupA (ensureSection c sec).sections k =
      match lookupA c.sections k with
      | some v => some v
      | none => if k = sec then some emptySection else none := by
  unfold ensureSection
  split
  · rename_i h
    cases hk : lookupA c.sections k with
    | some v => rfl
    | none =>
      by_cases hks : k = sec
      · rw [hks] at hk
        rw [hk] at h
        simp at h
      · dsimp only
        rw [if_neg hks]
  · dsimp only
    rw [lookupA_append]
    cases hk : lookupA c.sections k with
    | some v => rfl
    | none =>
      dsimp only
      rw [lookupA_single]

theorem totOf_ensureSection (c : Crawler) (sec k : String) :
    totOf (ensureSection c sec).sections k = totOf c.sections k := by
  unfold totOf
  rw [lookupA_ensureSection]
  cases hk : lookupA c.sections k with
  | some v => rfl
  | none =>
    by_cases hks : k = sec
    · rw [if_pos hks]
      rfl
    · rw [if_neg hks]

theorem lenOf_ensureSection (c : Crawler) (sec k : String) :
    lenOf (ensureSection c sec).sections k = lenOf c.sections k := by
  unfold lenOf
  rw [lookupA_ensureSection]
  cases hk : lookupA c.sections k with
  | some v => rfl
  | none =>
    by_cases hks : k = sec
    · rw [if_pos hks]
      rfl
    · rw [if_neg hks]

theorem ensureSection_self_isSome (c : Crawler) (sec : String) :
    (lookupA (ensureSection c sec).sections sec).isSome = true := by
  rw [lookupA_ensureSection]
  cases hk : lookupA c.sections sec with
  | some v => rfl
  | none => rw [if_pos rfl]; rfl

theorem ensureSection_isSome_mono (c : Crawler) (sec k : String)
    (h : (lookupA c.sections k).isSome = true) :
    (lookupA (ensureSection c sec).sections k).isSome = true := by
  rw [lookupA_ensureSection]
  cases hk : lookupA c.sections k with
  | some v => rfl
  | none => rw [hk] at h; simp at h

theorem APT_ensureSection (c : Crawler) (sec : String) (h : APT c.sections) :
    APT (ensureSection c sec).sections := by
  unfold ensureSection
  split
  · exact h
  · intro e he
    rcases List.mem_append.mp he with h' | h'
    · exact h e h'
    · simp only [List.mem_singleton] at h'
      rw [h']
      rfl

theorem bumpSection_total (st : String) (dp : Nat) (d : SectionData) :
    (bumpSection st dp d).total_pages = d.total_pages + 1 := by
  unfold bumpSection
  dsimp only
  split <;> rfl

theorem bumpSection_pages (st : String) (dp : Nat) (d : SectionData) :
    (bumpSection st dp d).pages = d.pages := by
  unfold bumpSection
  dsimp only
  split <;> rfl

theorem bumpSection_apt (st : String) (dp : Nat) (d : SectionData)
    (h : d.active_pages + d.placeholder_pages = d.total_pages) :
    (bumpSection st dp d).active_pages + (bumpSection st dp d).placeholder_pages =
      (bumpSection st dp d).total_pages := by
  unfold bumpSection
  dsimp only
  split <;> dsimp only <;> omega

theorem APT_updateA (S : List (String × SectionData)) (k : String)
    (f : SectionData → SectionData) (h : APT S)
    (hf : ∀ d, d.active_pages + d.placeholder_pages = d.total_pages →
      (f d).active_pages + (f d).placeholder_pages = (f d).total_pages) :
    APT (updateA S k f) := by
  intro e he
  unfold updateA at he
  obtain ⟨e0, he0, heq⟩ := List.mem_map.mp he
  by_cases hk : e0.1 = k
  · rw [if_pos hk] at heq
    rw [← heq]
    exact hf e0.2 (h e0 he0)
  · rw [if_neg hk] at heq
    rw [← heq]
    exact h e0 he0

theorem totOf_bump_self (c : Crawler) (sec : String) (st : String) (dp : Nat)
    (h : (lookupA c.sections sec).isSome = true) :
    totOf (bumpSectionCounters c sec st dp).sections sec =
      totOf c.sections sec + 1 := by
  unfold bumpSectionCounters totOf
  dsimp only
  rw [lookupA_updateA, if_pos rfl]
  cases hk : lookupA c.sections sec with
  | none => rw [hk] at h; simp at h
  | some v =>
    dsimp only [Option.map_some']
    rw [bumpSection_total]
    rfl

theorem totOf_bump_other (c : Crawler) (sec : String) (st : String) (dp : Nat)
    (k : String) (h : ¬ k = sec) :
    totOf (bumpSectionCounters c sec st dp).sections k = totOf c.sections k := by
  unfold bumpSectionCounters totOf
  dsimp only
  rw [lookupA_updateA, if_neg h]

theorem lenOf_bump (c : Crawler) (sec : String) (st : String) (dp : Nat)
    (k : String) :
    lenOf (bumpSectionCounters c sec st dp).sections k = lenOf c.sections k := by
  unfold bumpSectionCounters lenOf
  dsimp only
  rw [lookupA_updateA]
  by_cases hk : k = sec
  · rw [if_pos hk]
    cases lookupA c.sections k with
    | none => rfl
    | some v =>
      dsimp only [Option.map_some']
      rw [bumpSection_pages]
  · rw [if_neg hk]

theorem bump_isSome_mono (c : Crawler) (sec : String) (st : String) (dp : Nat)
    (k : String) (h : (lookupA c.sections k).isSome = true) :
    (lookupA (bumpSectionCounters c sec st dp).sections k).isSome = true := by
  unfold bumpSectionCounters
  dsimp only
  rw [lookupA_updateA]
  by_cases hk : k = sec
  · rw [if_pos hk]
    cases hv : lookupA c.sections k with
    | none => rw [hv] at h; simp at h
    | some v => rfl
  · rw [if_neg hk]
    exact h

theorem APT_bump (c : Crawler) (sec : String) (st : String) (dp : Nat)
    (h : APT c.sections) :
    APT (bumpSectionCounters c sec st dp).sections := by
  unfold bumpSectionCounters
  exact APT_updateA c.sections sec (bumpSection st dp) h
    (fun d hd => bumpSection_apt st dp d hd)

theorem totOf_append (c : Crawler) (sec : String) (pg : Page) (k : String) :
    totOf (appendPage c sec pg).sections k = totOf c.sections k := by
  unfold appendPage totOf
  dsimp only
  rw [lookupA_updateA]
  by_cases hk : k = sec
  · rw [if_pos hk]
    cases lookupA c.sections k with
    | none => rfl
    | some v => rfl
  · rw [if_neg hk]

theorem lenOf_append_self (c : Crawler) (sec : String) (pg : Page)
    (h : (lookupA c.sections sec).isSome = true) :
    lenOf (appendPage c sec pg).sections sec = lenOf c.sections sec + 1 := by
  unfold appendPage lenOf
  dsimp only
  rw [lookupA_updateA, if_pos rfl]
  cases hk : lookupA c.sections sec with
  | none => rw [hk] at h; simp at h
  | some v =>
    dsimp only [Option.map_some']
    simp

theorem lenOf_append_other (c : Crawler) (sec : String) (pg : Page) (k : String)
    (h : ¬ k = sec) :
    lenOf (appendPage c sec pg).sections k = lenOf c.sections k := by
  unfold appendPage lenOf
  dsimp only
  rw [lookupA_updateA, if_neg h]

theorem append_isSome_mono (c : Crawler) (sec : String) (pg : Page) (k : String)
    (h : (lookupA c.sections k).isSome = true) :
    (lookupA (appendPage c sec pg).sections k).isSome = true := by
  unfold appendPage
  dsimp only
  rw [lookupA_updateA]
  by_cases hk : k = sec
  · rw [if_pos hk]
    cases hv : lookupA c.sections k with
    | none => rw [hv] at h; simp at h
    | some v => rfl
  · rw [if_neg hk]
    exact h

theorem APT_append (c : Crawler) (sec : String) (pg : Page) (h : APT c.sections) :
    APT (appendPage c sec pg).sections := by
  unfold appendPage
  dsimp only
  exact APT_updateA c.sections sec
    (fun d => { d with pages := d.pages ++ [pg] }) h (fun d hd => hd)

theorem checkpointStep_sections (c : Crawler) :
    (checkpointStep c).sections = c.sections := by
  unfold checkpointStep
  dsimp only
  split <;> rfl

theorem checkpointStep_filesAPT (c : Crawler) (h1 : APT c.sections)
    (h2 : filesAPT c.cm.files) :
    filesAPT (checkpointStep c).cm.files := by
  unfold checkpointStep save_checkpoint buildSnapshot should_checkpoint
  dsimp only
  split
  · intro e he cd hcd S hS
    rcases List.mem_append.mp he with h' | h'
    · exact h2 e h' cd hcd S hS
    · simp only [List.mem_singleton] at h'
      rw [h'] at hcd
      dsimp only at hcd
      injection hcd with hcd
      rw [← hcd] at hS
      dsimp only at hS
      injection hS with hS
      rw [← hS]
      exact h1
  · exact h2

end Govuk

namespace Govuk

/-- The C1 induction relation: a complete `_process_content` call adds exactly
as many entries to a section's page list as to its `total_pages` counter (per
key); section keys never disappear; and `active + placeholder = total` — for
the live sections and for every saved checkpoint — is preserved. -/
def C1Rel (a b : Crawler) : Prop :=
  (∀ k, totOf b.sections k + lenOf a.sections k =
    totOf a.sections k + lenOf b.sections k) ∧
  (∀ k, (lookupA a.sections k).isSome = true →
    (lookupA b.sections k).isSome = true) ∧
  ((APT a.sections ∧ filesAPT a.cm.files) →
    (APT b.sections ∧ filesAPT b.cm.files))

theorem C1Rel_refl (c : Crawler) : C1Rel c c :=
  ⟨fun _ => rfl, fun _ h => h, id⟩

theorem C1Rel_trans {a b c : Crawler} (h1 : C1Rel a b) (h2 : C1Rel b c) :
    C1Rel a c := by
  obtain ⟨h11, h12, h13⟩ := h1
  obtain ⟨h21, h22, h23⟩ := h2
  refine ⟨?_, fun k h => h22 k (h12 k h), fun h => h23 (h13 h)⟩
  intro k
  have ha := h11 k
  have hb := h21 k
  omega

theorem C1Rel_of_parts {a b : Crawler} (hs : b.sections = a.sections)
    (hcm : b.cm = a.cm) : C1Rel a b :=
  ⟨fun k => by rw [hs], fun k h => by rw [hs]; exact h,
    fun h => by rw [hs, hcm]; exact h⟩

theorem c1_main_step (api : Api) (fuel : Nat)
    (hlinks : ∀ (links : List String) (acc : Crawler) (depth : Nat) (sec : String),
      C1Rel acc (processLinks api fuel acc links depth sec))
    (c : Crawler) (path ctype status : String) (depth : Nat) (sec : String)
    (related : List String) (page : Page) :
    C1Rel c (checkpointStep (appendPage
      (if depth < c.max_depth then
        processLinks api fuel
          (bumpSectionCounters (ensureSection (markVisited c path depth ctype) sec)
            sec status depth) related depth sec
      else
        bumpSectionCounters (ensureSection (markVisited c path depth ctype) sec)
          sec status depth)
      sec page)) := by
  set cM := markVisited c path depth ctype with hcM
  set cE := ensureSection cM sec with hcE
  set cB := bumpSectionCounters cE sec status depth with hcB
  set c4 := (if depth < c.max_depth then
      processLinks api fuel cB related depth sec else cB) with hc4
  set cA := appendPage c4 sec page with hcA
  have hMs : cM.sections = c.sections := rfl
  have hMcm : cM.cm = c.cm := rfl
  have hEcm : cE.cm = c.cm := by rw [hcE, ensureSection_cm, hMcm]
  have hBcm : cB.cm = c.cm := by rw [hcB, bumpSectionCounters_cm, hEcm]
  have hEsec : (lookupA cE.sections sec).isSome = true := by
    rw [hcE]; exact ensureSection_self_isSome cM sec
  have hBsec : (lookupA cB.sections sec).isSome = true := by
    rw [hcB]; exact bump_isSome_mono cE sec status depth sec hEsec
  have hRel : C1Rel cB c4 := by
    rw [hc4]
    split
    · exact hlinks related cB depth sec
    · exact C1Rel_refl cB
  have h4sec : (lookupA c4.sections sec).isSome = true := hRel.2.1 sec hBsec
  have hBt_self : totOf cB.sections sec = totOf c.sections sec + 1 := by
    rw [hcB, totOf_bump_self cE sec status depth hEsec, hcE,
      totOf_ensureSection cM sec sec, hMs]
  have hBt_other : ∀ k, ¬ k = sec → totOf cB.sections k = totOf c.sections k := by
    intro k hk
    rw [hcB, totOf_bump_other cE sec status depth k hk, hcE,
      totOf_ensureSection cM sec k, hMs]
  have hBl : ∀ k, lenOf cB.sections k = lenOf c.sections k := by
    intro k
    rw [hcB, lenOf_bump cE sec status depth k, hcE, lenOf_ensureSection cM sec k,
      hMs]
  have hAt : ∀ k, totOf cA.sections k = totOf c4.sections k := by
    intro k
    rw [hcA, totOf_append c4 sec page k]
  have hAl_self : lenOf cA.sections sec = lenOf c4.sections sec + 1 := by
    rw [hcA, lenOf_append_self c4 sec page h4sec]
  have hAl_other : ∀ k, ¬ k = sec → lenOf cA.sections k = lenOf c4.sections k := by
    intro k hk
    rw [hcA, lenOf_append_other c4 sec page k hk]
  have hFs : (checkpointStep cA).sections = cA.sections := checkpointStep_sections cA
  refine ⟨?_, ?_, ?_⟩
  · intro k
    rw [hFs]
    by_cases hk : k = sec
    · subst hk
      have h1 := hRel.1 k
      have h2 := hBl k
      have h3 := hBt_self
      have h4 := hAt k
      have h5 := hAl_self
      omega
    · have h1 := hRel.1 k
      have h2 := hBl k
      have h3 := hBt_other k hk
      have h4 := hAt k
      have h5 := hAl_other k hk
      omega
  · intro k h
    rw [hFs]
    have hM : (lookupA cM.sections k).isSome = true := by rw [hMs]; exact h
    have hE : (lookupA cE.sections k).isSome = true := by
      rw [hcE]; exact ensureSection_isSome_mono cM sec k hM
    have hB : (lookupA cB.sections k).isSome = true := by
      rw [hcB]; exact bump_isSome_mono cE sec status depth k hE
    have h4 : (lookupA c4.sections k).isSome = true := hRel.2.1 k hB
    rw [hcA]
    exact append_isSome_mono c4 sec page k h4
  · rintro ⟨hA, hF⟩
    have hEapt : APT cE.sections := by
      rw [hcE]
      exact APT_ensureSection cM sec (by rw [hMs]; exact hA)
    have hBapt : APT cB.sections := by
      rw [hcB]; exact APT_bump cE sec status depth hEapt
    have h4 := hRel.2.2 ⟨hBapt, by rw [hBcm]; exact hF⟩
    have hAapt : APT cA.sections := by
      rw [hcA]; exact APT_append c4 sec page h4.1
    have hAfiles : filesAPT cA.cm.files := by
      rw [hcA, appendPage_cm]; exact h4.2
    exact ⟨by rw [hFs]; exact hAapt, checkpointStep_filesAPT cA hAapt hAfiles⟩

theorem processContent_c1Rel (api : Api) :
    ∀ (fuel : Nat) (c : Crawler) (content : Content) (depth : Nat) (sec : String),
      C1Rel c (processContent api fuel c content depth sec) := by
  intro fuel
  induction fuel with
  | zero => intro c _ _ _; exact C1Rel_refl c
  | succ fuel ih =>
    have hstep : ∀ (depth : Nat) (sec : String) (acc : Crawler) (l : String),
        C1Rel acc (linkStep api fuel depth sec acc l) := by
      intro depth sec acc l
      unfold linkStep
      split
      · cases api l with
        | ok cc =>
          exact C1Rel_trans (C1Rel_of_parts rfl rfl) (ih _ cc (depth + 1) sec)
        | error e => exact C1Rel_of_parts rfl rfl
      · exact C1Rel_refl acc
    have hlinks : ∀ (links : List String) (acc : Crawler) (depth : Nat)
        (sec : String), C1Rel acc (processLinks api fuel acc links depth sec) := by
      intro links
      induction links with
      | nil => intro acc _ _; exact C1Rel_refl acc
      | cons l rest ihl =>
        intro acc depth sec
        unfold processLinks at ihl ⊢
        rw [List.foldl_cons]
        exact C1Rel_trans (hstep depth sec acc l) (ihl _ depth sec)
    intro c content depth sec
    rw [processContent_succ]
    split
    · exact C1Rel_refl c
    · split
      · exact C1Rel_refl c
      · exact c1_main_step api fuel hlinks c _ _ _ depth sec _ _

end Govuk

namespace Govuk

/-- C1 (amended): if every section satisfies
`active_pages + placeholder_pages = total_pages = len(pages)` and every saved
checkpoint's section map satisfies the counter equation, then after a complete
`_process_content` call the same holds again — `active + placeholder = total`
moreover holds in every checkpoint saved along the way.  (The equality with
`len(pages)` is only guaranteed at these quiescent points: a checkpoint
captured while nested expansion is in progress may record
`total_pages > len(pages)`, see the counterexample.) -/
theorem section_counters_consistent_after_processing (api : Api) (fuel : Nat)
    (c : Crawler) (content : Content) (depth : Nat) (sec : String)
    (h1 : APT c.sections) (h2 : ∀ k, totOf c.sections k = lenOf c.sections k)
    (h3 : filesAPT c.cm.files) :
    APT (processContent api fuel c content depth sec).sections ∧
    (∀ k, totOf (processContent api fuel c content depth sec).sections k =
      lenOf (processContent api fuel c content depth sec).sections k) ∧
    filesAPT (processContent api fuel c content depth sec).cm.files := by
  obtain ⟨ha, hb, hc'⟩ := processContent_c1Rel api fuel c content depth sec
  have h4 := hc' ⟨h1, h3⟩
  refine ⟨h4.1, ?_, h4.2⟩
  intro k
  have h5 := ha k
  have h6 := h2 k
  omega

theorem section_counters_consistent_witness :
    (APT freshCrawler.sections ∧
      (∀ k, totOf freshCrawler.sections k = lenOf freshCrawler.sections k) ∧
      filesAPT freshCrawler.cm.files) ∧
    (APT (processContent c8Api 2 freshCrawler c8Parent 0 "/c8").sections ∧
      (∀ k, totOf (processContent c8Api 2 freshCrawler c8Parent 0 "/c8").sections k =
        lenOf (processContent c8Api 2 freshCrawler c8Parent 0 "/c8").sections k) ∧
      filesAPT (processContent c8Api 2 freshCrawler c8Parent 0 "/c8").cm.files) :=
  ⟨⟨fun e he => absurd he (List.not_mem_nil e), fun _ => rfl,
      fun e he => absurd he (List.not_mem_nil e)⟩,
    section_counters_consistent_after_processing c8Api 2 freshCrawler c8Parent 0
      "/c8" (fun e he => absurd he (List.not_mem_nil e)) (fun _ => rfl)
      (fun e he => absurd he (List.not_mem_nil e))⟩

/-- A manager that checkpoints after every page. -/
def c1CM : CheckpointManager :=
  { checkpoint_interval := 1, pages_since_checkpoint := 0
    now_ts := "20250101_000000", files := [] }

def c1Crawler : Crawler := { freshCrawler with cm := c1CM }

def c1Parent : Content :=
  { base_path := "/p", document_type := some "guide", updated_at := none
    title := some "T", body := some "B", schema_name := none, error := none
    organisations := [], related_items := [{ base_path := some "/c" }]
    related_guides := [], related_content := [] }

def c1Child : Content :=
  { base_path := "/c", document_type := some "guide", updated_at := none
    title := some "T", body := some "B", schema_name := none, error := none
    organisations := [], related_items := [], related_guides := []
    related_content := [] }

def c1Api : Api := fun p =>
  if p = "/p" then Except.ok c1Parent
  else if p = "/c" then Except.ok c1Child
  else Except.error "HTTP 500"

/-- `(total_pages, active+placeholder, len(pages))` of section "/p" in the
state captured by the first checkpoint the crawl saved. -/
def firstSaveSummary (c : Crawler) : Option (Nat × Nat × Nat) :=
  match c.cm.files.head? with
  | some (_, FileContent.good cd) =>
    match cd.state.sections with
    | some S =>
      some (totOf S "/p",
        (((lookupA S "/p").map (fun d => d.active_pages + d.placeholder_pages)).getD 0),
        lenOf S "/p")
    | none => none
  | _ => none

/-- C1 counterexample: crawling "/p" (whose related link "/c" is expanded
recursively) with checkpoint interval 1 saves a checkpoint at the end of the
child's processing, while the parent's expansion is still in progress.  That
snapshot records section "/p" with `total_pages = 2` and
`active + placeholder = 2` but only one entry in `pages` — so
`total_pages = len(pages)` does NOT hold in every intermediate state captured
into a checkpoint, contradicting the claim's "at all times" clause. -/
theorem intermediate_checkpoint_total_ne_len_cex :
    firstSaveSummary (processContent c1Api 2 c1Crawler c1Parent 0 "/p") =
      some (2, 2, 1) ∧ (2 : Nat) ≠ 1 :=
  ⟨by decide, by decide⟩

end Govuk
